import Mathlib

set_option maxRecDepth 4096

/-!
Verification development for the AIFORU Document Q&A system (src/main.py).

The repository's `main.py` wires a Streamlit session around a
retrieval-augmented QA pipeline.  The session logic (document processing,
chat handling, history clearing) is embedded directly from `main.py`.
The chunking and retrieval internals are delegated by `main.py` to
library calls (`CharacterTextSplitter`, `FAISS`, `RetrievalQA`) whose
code is not part of this repository's sources; those parts are modelled
from the specification, as marked in each doc comment.
-/

/-- Whitespace test used by the chunker's empty-document rule. -/
def isWs (c : Char) : Bool :=
  c == ' ' || c == '\n' || c == '\t' || c == '\r'

/-- Index of the last occurrence of `c` in `l`, if any. -/
def lastIdxOf (c : Char) : List Char → Option Nat
  | [] => none
  | a :: l =>
    match lastIdxOf c l with
    | some i => some (i + 1)
    | none => if a = c then some 0 else none

/-- Modelled from the spec: cut position for the next chunk of a text
longer than the 1000-character target (`CharacterTextSplitter` is not in
`src/`).  The chunk ends just after the last newline found within the
first 1000 characters when that leaves the chunk longer than the
200-character overlap; otherwise a hard character cut at 1000. -/
def cutPoint (cs : List Char) : Nat :=
  match lastIdxOf '\n' (cs.take 1000) with
  | some i => if 200 < i + 1 ∧ i + 1 ≤ 1000 then i + 1 else 1000
  | none => 1000

/-- Modelled from the spec: fuel-indexed chunking loop.  A text of at
most 1000 characters is a single chunk; otherwise the chunk ends at
`cutPoint` and the next chunk starts 200 characters earlier (overlap). -/
def goF : Nat → List Char → List (List Char)
  | 0, _ => []
  | n + 1, cs =>
    if cs.length ≤ 1000 then [cs]
    else cs.take (cutPoint cs) :: goF n (cs.drop (cutPoint cs - 200))

/-- Modelled from the spec: `split(text)` of the Chunker (target 1000,
overlap 200, newline-preferring, hard cut fallback); empty or
whitespace-only text yields the empty chunk sequence. -/
def splitText (cs : List Char) : List (List Char) :=
  if cs.all isWs then [] else goF cs.length cs

/-- Concatenation of the tail chunks with their 200-character overlap
removed. -/
def tailJoin : List (List Char) → List Char
  | [] => []
  | d :: l => d.drop 200 ++ tailJoin l

/-- The source text reassembled from a chunk sequence: the first chunk
whole, each later chunk with its 200-character overlap removed. -/
def reconstruct : List (List Char) → List Char
  | [] => []
  | c :: l => c ++ tailJoin l

/-- A 2500-character document with no newline, as in the spec scenario. -/
def doc2500 : List Char := List.replicate 2500 'a'

/-- Length of the first chunk the chunker takes from `cs`. -/
def headCut (cs : List Char) : Nat :=
  if cs.length ≤ 1000 then cs.length else cutPoint cs

/-- Two adjacent chunks share their 200-character overlap: the last 200
characters of the first equal the first 200 of the second. -/
def overlapRel (a b : List Char) : Prop :=
  a.drop (a.length - 200) = b.take 200

/-- A text chunk: owning document name, position in the original chunk
sequence, and content (spec §3 TextChunk). -/
structure Chunk where
  doc : String
  idx : Nat
  content : List Char
deriving DecidableEq

/-- Modelled from the spec: retrieval ranking (FAISS similarity search is
not in `src/`).  `a` ranks no worse than `b` when its similarity score is
strictly higher, or the scores tie and `a` came earlier in the original
chunk order (spec §4.3: ties broken by original chunk order). -/
def rank (score : Chunk → Int) (a b : Chunk) : Prop :=
  score b < score a ∨ (score a = score b ∧ a.idx ≤ b.idx)

instance (score : Chunk → Int) : DecidableRel (rank score) := fun a b => by
  unfold rank
  infer_instance

instance (score : Chunk → Int) : IsTotal Chunk (rank score) where
  total a b := by
    unfold rank
    omega

instance (score : Chunk → Int) : IsTrans Chunk (rank score) where
  trans a b c hab hbc := by
    unfold rank at hab hbc ⊢
    omega

/-- Modelled from the spec: nearest-neighbor retrieval over an index —
the `k` best-ranked chunks, in rank order. -/
def topK (score : Chunk → Int) (idx : List Chunk) (k : Nat) : List Chunk :=
  (List.insertionSort (rank score) idx).take k

/-- Modelled from the spec: the QA chain built by `process_document`
(src/main.py lines 143-156): a retriever over the index with `k = 4` and
a temperature-0 generation configuration. -/
structure QAChain where
  index : List Chunk
  k : Nat
  temperature : Nat
deriving DecidableEq

/-- Retrieval step of the QA chain: embed the question (the
query-dependent similarity `score` models embedding plus the index's
similarity metric) and take the chain's top `k` chunks. -/
def retrieve (score : String → Chunk → Int) (chain : QAChain) (q : String) : List Chunk :=
  topK (score q) chain.index chain.k

/-- Loader kinds selected by file extension (src/main.py lines 114-123). -/
inductive LoadKind
  | pdf
  | docx
  | txt
deriving DecidableEq

/-- The test `file_name.lower().endswith(suffix)` from src/main.py lines
115-119, carried out on the file name's character list. -/
def lowerEndsWith (suffix : List Char) (name : String) : Bool :=
  List.isSuffixOf suffix (name.data.map Char.toLower)

/-- Loader selection from `process_document` (src/main.py lines 114-123):
by lowercased file-name extension, `none` for unsupported formats. -/
def chooseLoader (file_name : String) : Option LoadKind :=
  if lowerEndsWith ".pdf".data file_name then some .pdf
  else if lowerEndsWith ".docx".data file_name then some .docx
  else if lowerEndsWith ".txt".data file_name then some .txt
  else none

/-- The chunks produced for one document: the split text, each chunk
tagged with the owning document's name and its sequence position. -/
def buildChunks (file_name : String) (text : List Char) : List Chunk :=
  (splitText text).enum.map fun p => ⟨file_name, p.1, p.2⟩

/-- `process_document` (src/main.py lines 111-164).  Chooses a loader by
extension (unsupported → error → `none`); loads the text (`load` is the
external extraction service; a raised exception is caught at line 161 and
yields `none`); splits it into chunks; rejects an empty chunk sequence
(line 134); embeds the chunks (`embed` is the external embedding service;
failure is caught and yields `none`); on success returns the QA chain
with `k = 4` and temperature 0. -/
def process_document (load : LoadKind → Except String (List Char))
    (embed : List Chunk → Except String Unit) (file_name : String) : Option QAChain :=
  match chooseLoader file_name with
  | none => none
  | some kind =>
    match load kind with
    | .error _ => none
    | .ok text =>
      let chunks := buildChunks file_name text
      if chunks.isEmpty then none
      else
        match embed chunks with
        | .error _ => none
        | .ok _ => some ⟨chunks, 4, 0⟩

/-- One chat message (src/main.py `st.session_state.messages` entries):
role, content, and for assistant answers the attributed source chunks. -/
structure Message where
  role : String
  content : String
  sources : Option (List Chunk)
deriving DecidableEq

/-- The Streamlit session state used by `main` (src/main.py):
`qa_chain`, `current_document`, and the chat history `messages`. -/
structure Session where
  qa_chain : Option QAChain
  current_document : Option String
  messages : List Message
deriving DecidableEq

/-- The "Process Document" handler (src/main.py lines 257-276): if the
download succeeds and `process_document` returns a chain, bind it and the
document name into the session; on any failure only an error is shown and
the session is left as it was. -/
def processEvent (downloadOk : Bool) (load : LoadKind → Except String (List Char))
    (embed : List Chunk → Except String Unit) (file_name : String) (s : Session) : Session :=
  if downloadOk then
    match process_document load embed file_name with
    | some chain => { s with qa_chain := some chain, current_document := some file_name }
    | none => s
  else s

/-- The assistant error message built at src/main.py line 340. -/
def errMsg (e : String) : String :=
  "Sorry, I encountered an error: " ++ e

/-- Modelled from the spec: running the QA chain (`RetrievalQA` is not in
`src/`): retrieve the top-k chunks for the question, then call the
generation service `gen` on the question and the retrieved context;
return the answer together with the source chunks, or the generation
failure. -/
def runChain (score : String → Chunk → Int)
    (gen : String → List Chunk → Except String String)
    (chain : QAChain) (q : String) : Except String (String × List Chunk) :=
  let sources := retrieve score chain q
  match gen q sources with
  | .error e => .error e
  | .ok resp => .ok (resp, sources)

/-- The chat-input handler (src/main.py lines 303-345): without a
processed document only an error is shown (line 305); otherwise the user
turn is appended, the chain is run, and either the answer with its
sources or the error explanation is appended as the assistant turn. -/
def chatEvent (score : String → Chunk → Int)
    (gen : String → List Chunk → Except String String)
    (prompt : String) (s : Session) : Session :=
  match s.qa_chain with
  | none => s
  | some chain =>
    let s1 := { s with messages := s.messages ++ [(⟨"user", prompt, none⟩ : Message)] }
    match runChain score gen chain prompt with
    | .ok (resp, srcs) =>
      { s1 with messages := s1.messages ++ [(⟨"assistant", resp, some srcs⟩ : Message)] }
    | .error e =>
      { s1 with messages := s1.messages ++ [(⟨"assistant", errMsg e, none⟩ : Message)] }

/-- The "Clear Chat History" handler (src/main.py lines 348-351): the
button exists only when the history is non-empty; pressing it empties
`messages` and touches nothing else. -/
def clearEvent (s : Session) : Session :=
  if s.messages.isEmpty then s else { s with messages := [] }

/-- The retrieval a question would trigger in a given session state:
`none` when no document is indexed. -/
def sessionRetrieve (score : String → Chunk → Int) (q : String) (s : Session) :
    Option (List Chunk) :=
  s.qa_chain.map fun chain => retrieve score chain q

example : splitText ['h', 'i'] = [['h', 'i']] := by decide
example : splitText [' ', '\n'] = [] := by decide

/-- The cut position always exceeds the 200-character overlap. -/
theorem cutPoint_gt (cs : List Char) : 200 < cutPoint cs := by
  unfold cutPoint
  rcases h : lastIdxOf '\n' (cs.take 1000) with _ | i
  · decide
  · dsimp only
    split
    · omega
    · omega

/-- The cut position never exceeds the 1000-character target. -/
theorem cutPoint_le (cs : List Char) : cutPoint cs ≤ 1000 := by
  unfold cutPoint
  rcases h : lastIdxOf '\n' (cs.take 1000) with _ | i
  · decide
  · dsimp only
    split
    · omega
    · omega

/-- Joining the tail chunks with overlaps removed yields the text after
its first 200 characters. -/
theorem tailJoin_goF : ∀ n cs, cs.length ≤ n → tailJoin (goF n cs) = cs.drop 200 := by
  intro n
  induction n with
  | zero =>
    intro cs h
    have : cs = [] := List.eq_nil_of_length_eq_zero (by omega)
    subst this
    rfl
  | succ n ih =>
    intro cs h
    by_cases h1 : cs.length ≤ 1000
    · simp only [goF]
      rw [if_pos h1]
      simp [tailJoin]
    · have hgt := cutPoint_gt cs
      have hle := cutPoint_le cs
      simp only [goF]
      rw [if_neg h1, tailJoin]
      rw [ih _ (by simp [List.length_drop]; omega)]
      rw [List.drop_take, List.drop_drop]
      rw [show cutPoint cs - 200 + 200 = 200 + (cutPoint cs - 200) from by omega]
      rw [← List.drop_drop]
      exact List.take_append_drop _ _

/-- Reassembling the chunking loop's output reproduces the text. -/
theorem reconstruct_goF (n : Nat) (cs : List Char) (h : cs.length ≤ n) :
    reconstruct (goF n cs) = cs := by
  cases n with
  | zero =>
    have : cs = [] := List.eq_nil_of_length_eq_zero (by omega)
    subst this
    rfl
  | succ n =>
    by_cases h1 : cs.length ≤ 1000
    · simp only [goF]
      rw [if_pos h1]
      simp [reconstruct, tailJoin]
    · have hgt := cutPoint_gt cs
      simp only [goF]
      rw [if_neg h1, reconstruct]
      rw [tailJoin_goF n _ (by simp [List.length_drop]; omega)]
      rw [List.drop_drop]
      rw [show cutPoint cs - 200 + 200 = cutPoint cs from by omega]
      exact List.take_append_drop _ _

/-- The chunking loop never returns the empty sequence when given
positive fuel. -/
theorem goF_ne_nil (n : Nat) (cs : List Char) : goF (n + 1) cs ≠ [] := by
  simp only [goF]
  split
  · simp
  · simp

/-- Every chunk the loop produces is at most 1000 characters long. -/
theorem goF_chunk_le (n : Nat) :
    ∀ cs, cs.length ≤ n → ∀ c ∈ goF n cs, c.length ≤ 1000 := by
  induction n with
  | zero =>
    intro cs h c hc
    simp [goF] at hc
  | succ n ih =>
    intro cs h c hc
    by_cases h1 : cs.length ≤ 1000
    · simp only [goF] at hc
      rw [if_pos h1] at hc
      simp at hc
      subst hc
      exact h1
    · have hgt := cutPoint_gt cs
      have hle := cutPoint_le cs
      simp only [goF] at hc
      rw [if_neg h1] at hc
      rcases List.mem_cons.mp hc with rfl | hc
      · simp [List.length_take]
        omega
      · exact ih _ (by simp [List.length_drop]; omega) c hc

/-- The loop's first chunk is the prefix of length `headCut`. -/
theorem goF_head (n : Nat) (cs : List Char) :
    ∃ tl, goF (n + 1) cs = cs.take (headCut cs) :: tl := by
  simp only [goF, headCut]
  by_cases h1 : cs.length ≤ 1000
  · rw [if_pos h1, if_pos h1]
    exact ⟨[], by rw [List.take_length]⟩
  · rw [if_neg h1, if_neg h1]
    exact ⟨_, rfl⟩

/-- The first chunk is never shorter than the 200-character overlap,
provided the text itself is at least that long. -/
theorem headCut_ge (cs : List Char) (h : 200 ≤ cs.length) : 200 ≤ headCut cs := by
  unfold headCut
  split
  · omega
  · have := cutPoint_gt cs
    omega

/-- Adjacent chunks produced by the loop overlap by exactly 200
characters. -/
theorem goF_chain (n : Nat) :
    ∀ cs, cs.length ≤ n → List.Chain' overlapRel (goF n cs) := by
  induction n with
  | zero =>
    intro cs h
    simp [goF]
  | succ n ih =>
    intro cs h
    by_cases h1 : cs.length ≤ 1000
    · simp only [goF]
      rw [if_pos h1]
      exact List.chain'_singleton _
    · have hgt := cutPoint_gt cs
      have hle := cutPoint_le cs
      have hlen : (cs.drop (cutPoint cs - 200)).length ≤ n := by
        simp [List.length_drop]; omega
      simp only [goF]
      rw [if_neg h1, List.chain'_cons']
      refine ⟨?_, ih _ hlen⟩
      intro y hy
      obtain ⟨m, rfl⟩ : ∃ m, n = m + 1 := ⟨n - 1, by omega⟩
      obtain ⟨tl, htl⟩ := goF_head m (cs.drop (cutPoint cs - 200))
      rw [htl] at hy
      simp only [List.head?_cons, Option.mem_def, Option.some.injEq] at hy
      subst hy
      unfold overlapRel
      rw [List.length_take]
      rw [show min (cutPoint cs) cs.length = cutPoint cs from by omega]
      rw [List.drop_take]
      rw [show cutPoint cs - (cutPoint cs - 200) = 200 from by omega]
      rw [List.take_take]
      rw [show min 200 (headCut (cs.drop (cutPoint cs - 200))) = 200 from by
        have := headCut_ge (cs.drop (cutPoint cs - 200))
          (by simp [List.length_drop]; omega)
        omega]

/-- `lastIdxOf` finds nothing in a run of a different character. -/
theorem lastIdxOf_replicate (c b : Char) (h : b ≠ c) :
    ∀ n, lastIdxOf c (List.replicate n b) = none := by
  intro n
  induction n with
  | zero => rfl
  | succ n ih => simp [List.replicate_succ, lastIdxOf, ih, h]

/-- On a newline-free run the chunker always hard-cuts at 1000. -/
theorem cutPoint_replicate (n : Nat) : cutPoint (List.replicate n 'a') = 1000 := by
  unfold cutPoint
  rw [List.take_replicate, lastIdxOf_replicate _ _ (by decide)]

/-- One oversize chunking step on a newline-free run. -/
theorem goF_replicate_step (n m : Nat) (h1000 : 1000 < m) :
    goF (n + 1) (List.replicate m 'a') =
      List.replicate 1000 'a' :: goF n (List.replicate (m - 800) 'a') := by
  simp only [goF, List.length_replicate, cutPoint_replicate, List.take_replicate,
    List.drop_replicate]
  rw [if_neg (by omega)]
  congr 2
  omega

/-- The terminal chunking step on a short newline-free run. -/
theorem goF_replicate_last (n m : Nat) (hm : m ≤ 1000) :
    goF (n + 1) (List.replicate m 'a') = [List.replicate m 'a'] := by
  simp only [goF, List.length_replicate]
  rw [if_pos hm]

/-- The chunk sequence of the 2500-character newline-free document. -/
theorem splitText_doc2500 :
    splitText doc2500 =
      [List.replicate 1000 'a', List.replicate 1000 'a', List.replicate 900 'a'] := by
  have hws : ∀ n, ((List.replicate (n + 1) 'a').all isWs) = false := by
    intro n; simp [isWs]
  show splitText (List.replicate 2500 'a') = _
  unfold splitText
  rw [show (2500 : Nat) = 2499 + 1 from rfl, hws, List.length_replicate]
  simp only [Bool.false_eq_true, if_false]
  rw [goF_replicate_step _ _ (by omega)]
  rw [show (2499 + 1 - 800 : Nat) = 1700 from rfl]
  rw [show (2499 : Nat) = 2498 + 1 from rfl, goF_replicate_step _ _ (by omega)]
  rw [show (1700 - 800 : Nat) = 900 from rfl]
  rw [show (2498 : Nat) = 2497 + 1 from rfl, goF_replicate_last _ _ (by omega)]

/-- Retrieved chunks always come from the index. -/
theorem mem_topK (score : Chunk → Int) (idx : List Chunk) (k : Nat) (c : Chunk)
    (h : c ∈ topK score idx k) : c ∈ idx := by
  unfold topK at h
  exact (List.mem_insertionSort (rank score)).mp (List.take_subset _ _ h)

/-- Every chunk of a successfully built chain belongs to the processed
document. -/
theorem process_document_doc (load : LoadKind → Except String (List Char))
    (embed : List Chunk → Except String Unit) (fn : String) (chain : QAChain)
    (h : process_document load embed fn = some chain) :
    ∀ c ∈ chain.index, c.doc = fn := by
  unfold process_document at h
  split at h
  · exact absurd h (by simp)
  · split at h
    · exact absurd h (by simp)
    · dsimp only at h
      split at h
      · exact absurd h (by simp)
      · split at h
        · exact absurd h (by simp)
        · cases h
          intro c hc
          unfold buildChunks at hc
          simp only [List.mem_map] at hc
          obtain ⟨p, _, rfl⟩ := hc
          rfl

/-- A successfully built chain retrieves with `k = 4`. -/
theorem process_document_k (load : LoadKind → Except String (List Char))
    (embed : List Chunk → Except String Unit) (fn : String) (chain : QAChain)
    (h : process_document load embed fn = some chain) : chain.k = 4 := by
  unfold process_document at h
  split at h
  · exact absurd h (by simp)
  · split at h
    · exact absurd h (by simp)
    · dsimp only at h
      split at h
      · exact absurd h (by simp)
      · split at h
        · exact absurd h (by simp)
        · cases h
          rfl

/-- A chat turn never changes the bound chain. -/
theorem chatEvent_qa_chain (score : String → Chunk → Int)
    (gen : String → List Chunk → Except String String) (prompt : String) (s : Session) :
    (chatEvent score gen prompt s).qa_chain = s.qa_chain := by
  rcases h : s.qa_chain with _ | chain
  · simp only [chatEvent, h]
  · simp only [chatEvent, h]
    rcases hr : runChain score gen chain prompt with e | ⟨resp, srcs⟩
    · simp [hr, h]
    · simp [hr, h]

/-- C1 (counterexample): the spec's scenario is false — the 2500-character
newline-free document is chunked into sizes 1000/1000/900, not
1000/1000/500 (sizes 1000/1000/500 with 200-character overlaps could
cover only 2100 of the 2500 characters). -/
theorem claim1_counterexample :
    (splitText doc2500).map List.length ≠ [1000, 1000, 500] := by
  rw [splitText_doc2500]
  simp

/-- C1 (amended): the chunker targets 1000 characters (no chunk is
longer), adjacent chunks overlap by exactly 200 characters, and a
2500-character document without newlines yields exactly 3 chunks of
sizes 1000/1000/900. -/
theorem claim1_chunker_policy :
    (∀ cs, ∀ c ∈ splitText cs, c.length ≤ 1000) ∧
    (∀ cs, List.Chain' overlapRel (splitText cs)) ∧
    (splitText doc2500).map List.length = [1000, 1000, 900] := by
  refine ⟨?_, ?_, ?_⟩
  · intro cs c hc
    unfold splitText at hc
    split at hc
    · simp at hc
    · exact goF_chunk_le cs.length cs le_rfl c hc
  · intro cs
    unfold splitText
    split
    · exact List.chain'_nil
    · exact goF_chain cs.length cs le_rfl
  · rw [splitText_doc2500]
    simp

/-- C1 witness: the amended theorem applied to a concrete two-character
document. -/
theorem claim1_chunker_policy_witness :
    ['h', 'i'] ∈ splitText ['h', 'i'] ∧ (['h', 'i'] : List Char).length ≤ 1000 :=
  ⟨by decide, claim1_chunker_policy.1 ['h', 'i'] ['h', 'i'] (by decide)⟩

/-- C2: for every text that is not whitespace-only (the loader's
non-empty-content case, src/main.py line 134), the chunk sequence is
non-empty and reassembling it in sequence order with the 200-character
overlaps removed reproduces the source text exactly. -/
theorem claim2_reconstruction (cs : List Char) (h : (cs.all isWs) = false) :
    splitText cs ≠ [] ∧ reconstruct (splitText cs) = cs := by
  have hne : cs ≠ [] := by
    intro hnil
    subst hnil
    simp at h
  have hsplit : splitText cs = goF cs.length cs := by
    unfold splitText
    rw [h]
    simp
  constructor
  · rw [hsplit]
    obtain ⟨m, hm⟩ : ∃ m, cs.length = m + 1 := by
      rcases cs with _ | ⟨a, l⟩
      · exact absurd rfl hne
      · exact ⟨l.length, rfl⟩
    rw [hm]
    exact goF_ne_nil m cs
  · rw [hsplit]
    exact reconstruct_goF cs.length cs le_rfl

/-- C2 witness: the reconstruction theorem applied to a concrete
document. -/
theorem claim2_reconstruction_witness :
    ((['h', 'i'] : List Char).all isWs) = false ∧
    (splitText ['h', 'i'] ≠ [] ∧ reconstruct (splitText ['h', 'i']) = ['h', 'i']) :=
  ⟨by decide, claim2_reconstruction ['h', 'i'] (by decide)⟩

/-- C5: a question asked while no document has been processed
(src/main.py line 304) changes nothing — for every similarity and
generation behavior the session, and in particular the conversation
history, is returned untouched, so the index layer is never consulted. -/
theorem claim5_no_active_document (score : String → Chunk → Int)
    (gen : String → List Chunk → Except String String) (prompt : String)
    (s : Session) (h : s.qa_chain = none) :
    chatEvent score gen prompt s = s := by
  unfold chatEvent
  rw [h]

/-- C5 witness: the no-active-document theorem at a concrete session. -/
theorem claim5_no_active_document_witness :
    (⟨none, none, [⟨"user", "hi", none⟩]⟩ : Session).qa_chain = none ∧
    chatEvent (fun _ _ => 0) (fun _ _ => .ok "x") "q"
        (⟨none, none, [⟨"user", "hi", none⟩]⟩ : Session) =
      (⟨none, none, [⟨"user", "hi", none⟩]⟩ : Session) :=
  ⟨rfl, claim5_no_active_document _ _ _ _ rfl⟩

/-- C6: when the generation call fails (src/main.py lines 339-345), the
history still gains the user's question as a user turn followed by an
assistant turn carrying the error explanation. -/
theorem claim6_generation_error_turns (score : String → Chunk → Int)
    (gen : String → List Chunk → Except String String) (prompt : String)
    (s : Session) (chain : QAChain) (e : String)
    (hq : s.qa_chain = some chain)
    (hg : gen prompt (retrieve score chain prompt) = .error e) :
    (chatEvent score gen prompt s).messages =
      s.messages ++ [⟨"user", prompt, none⟩, ⟨"assistant", errMsg e, none⟩] := by
  unfold chatEvent
  rw [hq]
  dsimp only
  simp only [runChain]
  rw [hg]
  simp

/-- C6 witness: the generation-failure theorem at a concrete session and
failing generation service. -/
theorem claim6_generation_error_turns_witness :
    (⟨some ⟨[], 4, 0⟩, some "d.txt", []⟩ : Session).qa_chain = some ⟨[], 4, 0⟩ ∧
    (chatEvent (fun _ _ => 0) (fun _ _ => .error "boom") "q"
        (⟨some ⟨[], 4, 0⟩, some "d.txt", []⟩ : Session)).messages =
      ([] : List Message) ++
        [⟨"user", "q", none⟩, ⟨"assistant", errMsg "boom", none⟩] :=
  ⟨rfl, claim6_generation_error_turns (fun _ _ => 0) (fun _ _ => .error "boom")
    "q" _ ⟨[], 4, 0⟩ "boom" rfl rfl⟩

/-- C7: retrieval is a pure function of the index contents and the query
text — a chat turn (whatever its generation service did) leaves the
chunks any question would retrieve unchanged, and two sessions holding
the same index retrieve identically regardless of their histories. -/
theorem claim7_retrieval_deterministic (score : String → Chunk → Int)
    (gen : String → List Chunk → Except String String) (prompt q : String)
    (s : Session) :
    sessionRetrieve score q (chatEvent score gen prompt s) = sessionRetrieve score q s ∧
    (∀ s' : Session, s.qa_chain = s'.qa_chain →
      sessionRetrieve score q s = sessionRetrieve score q s') := by
  constructor
  · unfold sessionRetrieve
    rw [chatEvent_qa_chain]
  · intro s' h
    unfold sessionRetrieve
    rw [h]

/-- C7 witness: the determinism theorem at concrete sessions sharing an
index but with different histories. -/
theorem claim7_retrieval_deterministic_witness :
    sessionRetrieve (fun _ _ => 0) "q"
        (chatEvent (fun _ _ => 0) (fun _ _ => .ok "a") "p"
          (⟨some ⟨[], 4, 0⟩, some "d.txt", []⟩ : Session)) =
      sessionRetrieve (fun _ _ => 0) "q" (⟨some ⟨[], 4, 0⟩, some "d.txt", []⟩ : Session) ∧
    sessionRetrieve (fun _ _ => 0) "q" (⟨some ⟨[], 4, 0⟩, some "d.txt", []⟩ : Session) =
      sessionRetrieve (fun _ _ => 0) "q"
        (⟨some ⟨[], 4, 0⟩, none, [⟨"user", "hi", none⟩]⟩ : Session) :=
  ⟨(claim7_retrieval_deterministic (fun _ _ => 0) (fun _ _ => .ok "a") "p" "q" _).1,
   (claim7_retrieval_deterministic (fun _ _ => 0) (fun _ _ => .ok "a") "p" "q" _).2
     (⟨some ⟨[], 4, 0⟩, none, [⟨"user", "hi", none⟩]⟩ : Session) rfl⟩

/-- C8: clearing the chat history (src/main.py lines 348-351) empties
`messages` and changes nothing else — the bound chain and document name
survive, and every question retrieves afterwards exactly what it would
have retrieved before. -/
theorem claim8_clear_history (s : Session) :
    (clearEvent s).messages = [] ∧
    (clearEvent s).qa_chain = s.qa_chain ∧
    (clearEvent s).current_document = s.current_document ∧
    (∀ (score : String → Chunk → Int) (q : String),
      sessionRetrieve score q (clearEvent s) = sessionRetrieve score q s) := by
  unfold clearEvent
  by_cases h : s.messages.isEmpty
  · rw [if_pos h]
    refine ⟨?_, rfl, rfl, fun _ _ => rfl⟩
    exact List.isEmpty_iff.mp h
  · rw [if_neg h]
    exact ⟨rfl, rfl, rfl, fun _ _ => rfl⟩

/-- C10: processing a document (src/main.py lines 257-276) touches only
the QA chain and current-document bindings — the conversation history is
identical before and after, whether the processing succeeded or failed. -/
theorem claim10_process_preserves_history (dl : Bool)
    (load : LoadKind → Except String (List Char))
    (embed : List Chunk → Except String Unit) (fn : String) (s : Session) :
    (processEvent dl load embed fn s).messages = s.messages := by
  unfold processEvent
  cases dl
  · rfl
  · cases h : process_document load embed fn
    · rfl
    · rfl

/-- C3: every chain built by `process_document` retrieves with `k = 4`
(src/main.py line 153), and retrieval returns at most 4 chunks, ranked
by non-increasing similarity with ties broken in favor of the earlier
chunk, and returns every chunk exactly once whenever the index holds at
most 4 pairs. -/
theorem claim3_query_contract :
    (∀ load embed fn chain,
      process_document load embed fn = some chain → chain.k = 4) ∧
    (∀ (score : Chunk → Int) (idx : List Chunk),
      (topK score idx 4).length ≤ 4 ∧
      List.Sorted (rank score) (topK score idx 4) ∧
      List.Sorted (fun a b => score b ≤ score a) (topK score idx 4) ∧
      (idx.length ≤ 4 → ∀ c, (topK score idx 4).count c = idx.count c)) := by
  constructor
  · exact fun load embed fn chain h => process_document_k load embed fn chain h
  · intro score idx
    have hp : List.Pairwise (rank score) (List.insertionSort (rank score) idx) :=
      List.sorted_insertionSort (rank score) idx
    refine ⟨List.length_take_le _ _, ?_, ?_, ?_⟩
    · exact hp.sublist (List.take_sublist _ _)
    · refine List.Pairwise.imp ?_ (hp.sublist (List.take_sublist _ _))
      intro a b hab
      rcases hab with hlt | ⟨heq, _⟩
      · omega
      · omega
    · intro hlen c
      unfold topK
      rw [List.take_of_length_le (by rw [List.length_insertionSort]; exact hlen)]
      exact (List.perm_insertionSort (rank score) idx).count_eq c

/-- C3 witness: the query contract applied to a concrete built chain and
concrete indexes. -/
theorem claim3_query_contract_witness :
    (⟨[⟨"a.txt", 0, ['h', 'i']⟩], 4, 0⟩ : QAChain).k = 4 ∧
    (topK (fun _ => 0) [] 4).length ≤ 4 ∧
    (topK (fun _ => (0 : Int)) [⟨"d", 0, []⟩] 4).count ⟨"d", 0, []⟩ =
      ([⟨"d", 0, []⟩] : List Chunk).count ⟨"d", 0, []⟩ :=
  ⟨claim3_query_contract.1 (fun _ => .ok ['h', 'i']) (fun _ => .ok ()) "a.txt" _
      (by decide),
   (claim3_query_contract.2 (fun _ => 0) []).1,
   (claim3_query_contract.2 (fun _ => 0) [⟨"d", 0, []⟩]).2.2.2 (by decide) _⟩

/-- C4: index building is all-or-nothing — an embedding failure makes
`process_document` return `none` (the exception is caught at src/main.py
line 161), and a `none` result leaves the whole session, including any
previously bound index and document name, exactly as it was (src/main.py
lines 263-271). -/
theorem claim4_build_all_or_nothing :
    (∀ load embed fn kind text e,
      chooseLoader fn = some kind → load kind = .ok text →
      embed (buildChunks fn text) = .error e →
      process_document load embed fn = none) ∧
    (∀ dl load embed fn s,
      process_document load embed fn = none → processEvent dl load embed fn s = s) := by
  constructor
  · intro load embed fn kind text e hcl hload hembed
    unfold process_document
    rw [hcl]
    dsimp only
    rw [hload]
    dsimp only
    by_cases hch : (buildChunks fn text).isEmpty
    · rw [if_pos hch]
    · rw [if_neg hch, hembed]
  · intro dl load embed fn s h
    unfold processEvent
    cases dl
    · rfl
    · rw [h]
      simp

/-- C4 witness: a concrete embedding failure aborts the build and leaves
a concrete prior session untouched. -/
theorem claim4_build_all_or_nothing_witness :
    process_document (fun _ => .ok ['h', 'i']) (fun _ => .error "quota") "a.txt" = none ∧
    processEvent true (fun _ => .ok ['h', 'i']) (fun _ => .error "quota") "a.txt"
        (⟨some ⟨[⟨"old.txt", 0, ['x']⟩], 4, 0⟩, some "old.txt",
          [⟨"user", "hi", none⟩]⟩ : Session) =
      (⟨some ⟨[⟨"old.txt", 0, ['x']⟩], 4, 0⟩, some "old.txt",
        [⟨"user", "hi", none⟩]⟩ : Session) := by
  have h1 : process_document (fun _ => .ok ['h', 'i'])
      (fun _ => .error "quota") "a.txt" = none :=
    claim4_build_all_or_nothing.1 (fun _ => .ok ['h', 'i']) (fun _ => .error "quota")
      "a.txt" .txt ['h', 'i'] "quota" (by decide) rfl rfl
  exact ⟨h1, claim4_build_all_or_nothing.2 true _ _ "a.txt" _ h1⟩

/-- C9: successfully processing a document replaces the session's chain
wholesale — afterwards the chain is exactly the newly built one, the
current document is the new name, and every chunk any query can retrieve
from that chain belongs to the newly indexed document. -/
theorem claim9_switch_document (load : LoadKind → Except String (List Char))
    (embed : List Chunk → Except String Unit) (fn : String) (s : Session)
    (chain : QAChain) (h : process_document load embed fn = some chain) :
    (processEvent true load embed fn s).qa_chain = some chain ∧
    (processEvent true load embed fn s).current_document = some fn ∧
    ∀ (score : String → Chunk → Int) (q : String) (c : Chunk),
      c ∈ retrieve score chain q → c.doc = fn := by
  refine ⟨?_, ?_, ?_⟩
  · unfold processEvent
    rw [h]
    simp
  · unfold processEvent
    rw [h]
    simp
  · intro score q c hc
    exact process_document_doc load embed fn chain h c
      (mem_topK (score q) chain.index chain.k c hc)

/-- C9 witness: processing a concrete new document over a session bound
to an old one, with the retrieved chunk owned by the new document. -/
theorem claim9_switch_document_witness :
    (processEvent true (fun _ => .ok ['h', 'i']) (fun _ => .ok ()) "a.txt"
        (⟨some ⟨[⟨"old.txt", 0, ['x']⟩], 4, 0⟩, some "old.txt",
          [⟨"user", "hi", none⟩]⟩ : Session)).qa_chain =
      some ⟨[⟨"a.txt", 0, ['h', 'i']⟩], 4, 0⟩ ∧
    (⟨"a.txt", 0, ['h', 'i']⟩ : Chunk).doc = "a.txt" := by
  have h : process_document (fun _ => .ok ['h', 'i']) (fun _ => .ok ()) "a.txt" =
      some ⟨[⟨"a.txt", 0, ['h', 'i']⟩], 4, 0⟩ := by decide
  have hmain := claim9_switch_document (fun _ => .ok ['h', 'i']) (fun _ => .ok ())
    "a.txt"
    (⟨some ⟨[⟨"old.txt", 0, ['x']⟩], 4, 0⟩, some "old.txt",
      [⟨"user", "hi", none⟩]⟩ : Session)
    ⟨[⟨"a.txt", 0, ['h', 'i']⟩], 4, 0⟩ h
  exact ⟨hmain.1, hmain.2.2 (fun _ _ => 0) "q" ⟨"a.txt", 0, ['h', 'i']⟩ (by decide)⟩
